import Mathlib

set_option autoImplicit false

namespace Timecard

/-!
Shallow embedding of the registration and relay core of the timecard API.

Database tables are modelled as lists of rows; `NOW()` is passed in as an
integer timestamp parameter (`now`), and MySQL `DATETIME` values are modelled
as integers (seconds), so `NOW() + INTERVAL 9 HOUR` becomes `now + nineHours`.
Nullable SQL columns are `Option` fields.
-/

/-- A row of the `drivers` reference table. -/
structure DriverRow where
  id : Int
  name : String
  deriving DecidableEq

/-- A row of the `ic_non_reged` pending-registration table.
`id` is the card id and is the table's primary key. -/
structure IcNonRegRow where
  id : String
  registered_id : Option Int
  datetime : Int
  deleted : Option Int
  deriving DecidableEq

/-- A row of the `ic_id` permanent-registry table. -/
structure IcIdRow where
  ic_id : String
  emp_id : Int
  deleted : Option Int
  date : Int
  deriving DecidableEq

/-- The database state touched by the registration claims. -/
structure Db where
  drivers : List DriverRow
  ic_non_reged : List IcNonRegRow
  ic_id : List IcIdRow
  deriving DecidableEq

/-- `NOW() + INTERVAL 9 HOUR` adds this fixed forward offset (in seconds). -/
def nineHours : Int := 9 * 3600

/-- SQL condition `deleted = 0 OR deleted IS NULL` on a nullable column. -/
def notDeletedOpt (d : Option Int) : Bool :=
  d == some 0 || d == none

/-- `SELECT id, name FROM drivers WHERE id = ?` with `fetch_optional`. -/
def findDriver (drivers : List DriverRow) (driver_id : Int) : Option DriverRow :=
  drivers.find? (fun d => d.id == driver_id)

/-- Request body shared by the HTTP register endpoints (`RegisterIcRequest`). -/
structure RegisterIcRequest where
  ic_id : String
  driver_id : Int
  deriving DecidableEq

/-- gRPC `RegisterDirectRequest` message. -/
structure RegisterDirectRequest where
  ic_id : String
  driver_id : Int
  deriving DecidableEq

/-- gRPC `RegisterDirectResponse` message. -/
structure RegisterDirectResponse where
  success : Bool
  message : String
  ic_id : Option String
  driver_id : Option Int
  driver_name : Option String
  deriving DecidableEq

/-- HTTP `RegisterDirectIcResponse` body (same shape as the gRPC response). -/
structure RegisterDirectIcResponse where
  success : Bool
  message : String
  ic_id : Option String
  driver_id : Option Int
  driver_name : Option String
  deriving DecidableEq

/-- The `INSERT ... ON DUPLICATE KEY UPDATE` upsert on `ic_non_reged`
(primary key `id`): sets `registered_id`, `datetime = NOW() + INTERVAL 9
HOUR`, `deleted = 0`, inserting a fresh row when the key is absent. -/
def upsertPending (pending : List IcNonRegRow) (ic_id : String) (driver_id : Int)
    (now : Int) : List IcNonRegRow :=
  if pending.any (fun r => r.id == ic_id) then
    pending.map fun r =>
      if r.id == ic_id then
        { id := r.id, registered_id := some driver_id,
          datetime := now + nineHours, deleted := some 0 }
      else r
  else
    pending ++ [{ id := ic_id, registered_id := some driver_id,
                  datetime := now + nineHours, deleted := some 0 }]

/-- gRPC `register_direct` (services/ic_non_reg.rs): resolves the driver name
with a `ID:{driver_id}` fallback when the driver row is absent, performs the
upsert unconditionally, and always answers `success = true`. -/
def register_direct (db : Db) (now : Int) (req : RegisterDirectRequest) :
    Db × RegisterDirectResponse :=
  let driver_name : String :=
    match findDriver db.drivers req.driver_id with
    | some row => row.name
    | none => "ID:" ++ toString req.driver_id
  let db' : Db :=
    { db with ic_non_reged := upsertPending db.ic_non_reged req.ic_id req.driver_id now }
  (db', { success := true
          message := "ICカード登録予約完了。次回ICタッチ時に登録されます"
          ic_id := some req.ic_id
          driver_id := some req.driver_id
          driver_name := some driver_name })

/-- HTTP `register_direct_ic` (http_api.rs): rejects when the driver id is
absent from `drivers`, rejects when `ic_id` has a row with `deleted = 0`
in the permanent registry, and otherwise performs the same upsert. -/
def register_direct_ic (db : Db) (now : Int) (req : RegisterIcRequest) :
    Db × RegisterDirectIcResponse :=
  match findDriver db.drivers req.driver_id with
  | none =>
      (db, { success := false
             message := "ドライバーIDが見つかりません"
             ic_id := none, driver_id := none, driver_name := none })
  | some driver =>
      if db.ic_id.any (fun r => r.ic_id == req.ic_id && r.deleted == some 0) then
        (db, { success := false
               message := "このICカードは既に登録されています"
               ic_id := some req.ic_id, driver_id := none, driver_name := none })
      else
        ({ db with ic_non_reged := upsertPending db.ic_non_reged req.ic_id req.driver_id now },
         { success := true
           message := "ICカード登録予約完了。次回ICタッチ時に登録されます"
           ic_id := some req.ic_id, driver_id := some req.driver_id,
           driver_name := some driver.name })

/-- HTTP `register_ic` (http_api.rs), the device-completion / finalize path:
`UPDATE ic_non_reged SET deleted = 1, registered_id = ? WHERE id = ?` followed
by an unconditional `INSERT INTO ic_id (ic_id, emp_id, deleted, date)
VALUES (?, ?, 0, NOW())`. -/
def register_ic (db : Db) (now : Int) (req : RegisterIcRequest) : Db :=
  let afterUpdate : Db :=
    { db with ic_non_reged := db.ic_non_reged.map fun r =>
        if r.id == req.ic_id then
          { r with deleted := some 1, registered_id := some req.driver_id }
        else r }
  { afterUpdate with ic_id := afterUpdate.ic_id ++
      [{ ic_id := req.ic_id, emp_id := req.driver_id, deleted := some 0, date := now }] }

/-- gRPC `cancel_reservation` (services/ic_non_reg.rs):
`UPDATE ic_non_reged SET registered_id = NULL, deleted = 0 WHERE id = ?`.
The UPDATE succeeds (affecting zero rows) when no row matches. -/
def cancel_reservation (db : Db) (ic_id : String) : Db :=
  { db with ic_non_reged := db.ic_non_reged.map fun r =>
      if r.id == ic_id then { r with registered_id := none, deleted := some 0 }
      else r }

/-- proto `IcNonReg` item produced by `get_all` (datetime kept numeric; the
string formatting of the timestamp is not modelled). -/
structure IcNonReg where
  id : String
  datetime : Int
  deleted : Option Bool
  registered_id : Option Int
  deriving DecidableEq

/-- The anti-join condition of `get_all`: some `ic_id` row matches the card
with `(i.deleted = 0 OR i.deleted IS NULL) AND i.date >= n.datetime`. -/
def blockedByRegistry (registry : List IcIdRow) (r : IcNonRegRow) : Bool :=
  registry.any fun i =>
    i.ic_id == r.id && notDeletedOpt i.deleted && decide (r.datetime ≤ i.date)

/-- Insert into a list sorted by `datetime` descending (`ORDER BY datetime DESC`). -/
def insertDesc (r : IcNonRegRow) : List IcNonRegRow → List IcNonRegRow
  | [] => [r]
  | x :: xs => if x.datetime ≤ r.datetime then r :: x :: xs else x :: insertDesc r xs

/-- Sort by `datetime` descending (insertion sort). -/
def sortByDatetimeDesc : List IcNonRegRow → List IcNonRegRow
  | [] => []
  | x :: xs => insertDesc x (sortByDatetimeDesc xs)

/-- gRPC `get_all` (services/ic_non_reg.rs): the `LEFT JOIN ic_id ... WHERE
... AND i.ic_id IS NULL` anti-join over `ic_non_reged`, keeping rows with
`datetime >= start_date` and `(deleted = 0 OR deleted IS NULL)` and no
non-deleted registry row with an equal-or-later date, ordered by datetime
descending, converted to proto items. -/
def get_all (db : Db) (start_date : Int) : List IcNonReg :=
  let rows := db.ic_non_reged.filter fun n =>
    decide (start_date ≤ n.datetime) && notDeletedOpt n.deleted &&
    !(blockedByRegistry db.ic_id n)
  (sortByDatetimeDesc rows).map fun r =>
    { id := r.id
      datetime := r.datetime
      deleted := r.deleted.map (fun d => d != 0)
      registered_id := r.registered_id }

/-!
JSON model for the socket.io relay path. serde_json's default `Value::Object`
is a `BTreeMap`, so object literals built with the `json!` macro end up with
their keys in sorted order; object literals below are written in that order.
Numbers are restricted to integers (the only numeric payloads the relayed
envelopes carry; `as_i64` succeeds exactly on these).
-/

inductive Json where
  | null : Json
  | bool : Bool → Json
  | num : Int → Json
  | str : String → Json
  | arr : List Json → Json
  | obj : List (String × Json) → Json

/-- `Value::get(key)`: `some` only on an object that has the key. -/
def Json.getKey : Json → String → Option Json
  | .obj fields, key => (fields.find? (fun f => f.1 == key)).map (fun f => f.2)
  | _, _ => none

/-- Replace the value at `key`, or append the binding when the key is absent. -/
def setFields (key : String) (v : Json) : List (String × Json) → List (String × Json)
  | [] => [(key, v)]
  | f :: fs => if f.1 == key then (key, v) :: fs else f :: setFields key v fs

/-- `value[key] = v` on an object (the only shape the relay code mutates:
the assignment is guarded by a successful `get`). -/
def Json.setKey : Json → String → Json → Json
  | .obj fields, key, v => .obj (setFields key v fields)
  | j, _, _ => j

/-- Lower-case hex digit. -/
def hexDigit (n : Nat) : Char :=
  if n < 10 then Char.ofNat (48 + n) else Char.ofNat (87 + n)

/-- serde_json's escaping of one character inside a JSON string literal. -/
def escapeJsonChar (c : Char) : String :=
  if c == '"' then "\\\""
  else if c == '\\' then "\\\\"
  else if c == '\x08' then "\\b"
  else if c == '\x0c' then "\\f"
  else if c == '\n' then "\\n"
  else if c == '\r' then "\\r"
  else if c == '\t' then "\\t"
  else if c.toNat < 32 then
    "\\u00" ++ String.singleton (hexDigit (c.toNat / 16)) ++
      String.singleton (hexDigit (c.toNat % 16))
  else String.singleton c

/-- serde_json's serialization of a string (quotes plus escapes). -/
def encodeJsonString (s : String) : String :=
  "\"" ++ String.join (s.data.map escapeJsonChar) ++ "\""

mutual

/-- `serde_json::to_string`. -/
def Json.encode : Json → String
  | .null => "null"
  | .bool true => "true"
  | .bool false => "false"
  | .num n => toString n
  | .str s => encodeJsonString s
  | .arr xs => "[" ++ encodeJsonArr xs ++ "]"
  | .obj fs => "\x7b" ++ encodeJsonObj fs ++ "\x7d"

/-- Comma-separated serialization of array elements. -/
def encodeJsonArr : List Json → String
  | [] => ""
  | [x] => Json.encode x
  | x :: y :: xs => Json.encode x ++ "," ++ encodeJsonArr (y :: xs)

/-- Comma-separated serialization of object fields. -/
def encodeJsonObj : List (String × Json) → String
  | [] => ""
  | [(k, v)] => encodeJsonString k ++ ":" ++ Json.encode v
  | (k, v) :: f :: fs =>
      encodeJsonString k ++ ":" ++ Json.encode v ++ "," ++ encodeJsonObj (f :: fs)

end

/-- `get_driver_name` (socketio_server.rs): `SELECT name FROM drivers WHERE
id = ?`, `fetch_optional`, mapped to the `name` column. A database error is
modelled by the `dbError` flag of `handle_message` below. -/
def get_driver_name (drivers : List DriverRow) (driver_id : Int) : Option String :=
  (drivers.find? (fun d => d.id == driver_id)).map (fun d => d.name)

/-- `data.get("status").and_then(as_str).unwrap_or("")`. -/
def statusOf (data : Json) : String :=
  match data.getKey "status" with
  | some (Json.str s) => s
  | _ => ""

/-- The `"tmp inserted wo pic"` branch of `handle_message`: when the payload
has an `id` and no string `name`, and the id is numeric, look the driver up;
fill `data.name` on success, and leave the envelope untouched when the driver
is absent or the query errors. -/
def enrichWoPic (drivers : List DriverRow) (dbError : Bool) (data : Json) : Json :=
  match data.getKey "data" with
  | some inner =>
      let has_id := (inner.getKey "id").isSome
      let has_name :=
        match inner.getKey "name" with
        | some (Json.str _) => true
        | _ => false
      if has_id && !has_name then
        match inner.getKey "id" with
        | some (Json.num id) =>
            if dbError then data
            else
              match get_driver_name drivers id with
              | some name => data.setKey "data" (inner.setKey "name" (Json.str name))
              | none => data
        | _ => data
      else data
  | none => data

/-- `handle_message` (socketio_server.rs): classify by status tag — only
`"tmp inserted wo pic"` is enriched; the `"tmp inserted"`/`"tmp inserted by
ic"`/`"tmp inserted by fing"`, `"insert ic_log"`, `"delete_ic"` and catch-all
arms only log and forward the envelope unchanged — then hand the serialized
envelope to the broadcast fan-out once (`broadcast_hello`). The second
component is the list of payloads handed to the fan-out. -/
def handle_message (drivers : List DriverRow) (dbError : Bool) (data : Json) :
    Json × List String :=
  let status := statusOf data
  let data' :=
    if status = "tmp inserted wo pic" then enrichWoPic drivers dbError data
    else data
  (data', [Json.encode data'])

/-- gRPC `DeleteIcResponse` message. -/
structure DeleteIcResponse where
  success : Bool
  message : String
  deriving DecidableEq

/-- `str::to_uppercase()`, modelled per character (the id alphabet is ASCII;
Unicode multi-character expansions do not arise). -/
def rustToUppercase (s : String) : String :=
  String.mk (s.data.map Char.toUpper)

/-- The `json!` object of `delete_ic` — `\x7b"status": "delete_ic", "ic":
ic_id\x7d` in the source; keys appear here in the sorted order serde_json's
BTreeMap gives them. -/
def deleteIcPayload (ic_id : String) : Json :=
  Json.obj [("ic", Json.str ic_id), ("status", Json.str "delete_ic")]

/-- gRPC `delete_ic` (services/ic_non_reg.rs): upper-cases the card id, and —
when a socket.io layer is configured and the root namespace is found — emits
the delete command double-encoded (object serialized to a string, that string
serialized again) on the `"hello"` channel; every other branch reports
failure. The function never touches the database; the third component is the
list of emitted payloads. -/
def delete_ic (db : Db) (socketioConfigured namespaceFound emitOk : Bool)
    (req_ic_id : String) : Db × DeleteIcResponse × List String :=
  let ic_id := rustToUppercase req_ic_id
  if socketioConfigured then
    let json_str := Json.encode (deleteIcPayload ic_id)
    let double_encoded := Json.encode (Json.str json_str)
    if namespaceFound then
      if emitOk then
        (db, { success := true, message := "IC削除リクエストを送信しました: " ++ ic_id },
          [double_encoded])
      else
        (db, { success := false, message := "Socket.IO emit failed" }, [])
    else
      (db, { success := false, message := "Socket.IO namespace not found" }, [])
  else
    (db, { success := false, message := "Socket.IO not configured" }, [])

/-- Pointwise ASCII case-insensitive equality of character lists. -/
def charsEqUpToCase : List Char → List Char → Bool
  | [], [] => true
  | c1 :: t1, c2 :: t2 => c1.toUpper == c2.toUpper && charsEqUpToCase t1 t2
  | _, _ => false

/-- Two strings differ only in (ASCII) letter case. -/
def eqUpToCase (s1 s2 : String) : Bool :=
  charsEqUpToCase s1.data s2.data

/-- The row `upsertPending` writes for a card. -/
def freshPendingRow (ic_id : String) (driver_id : Int) (now : Int) : IcNonRegRow :=
  { id := ic_id, registered_id := some driver_id,
    datetime := now + nineHours, deleted := some 0 }

/-- The empty database. -/
def dbEmpty : Db := { drivers := [], ic_non_reged := [], ic_id := [] }

/-- A database whose permanent registry already holds a non-deleted record
for card CARD1 and whose reference store holds driver 7. -/
def dbConflict : Db :=
  { drivers := [{ id := 7, name := "Alice" }],
    ic_non_reged := [],
    ic_id := [{ ic_id := "CARD1", emp_id := 3, deleted := some 0, date := 100 }] }

/-- Number of non-deleted permanent-registry rows for a card. -/
def countNonDeletedRegistry (db : Db) (card : String) : Nat :=
  (db.ic_id.filter (fun r => r.ic_id == card && notDeletedOpt r.deleted)).length

/-- A concrete payload carrying a numeric id 42 and no name. -/
def innerW : Json := Json.obj [("id", Json.num 42)]

/-- A concrete inbound envelope tagged `tmp inserted wo pic` around `innerW`. -/
def dataW : Json := Json.obj [("data", innerW), ("status", Json.str "tmp inserted wo pic")]

/-- A reference store in which driver 42 is named Alice. -/
def driversW : List DriverRow := [{ id := 42, name := "Alice" }]

/-- A concrete inbound envelope with an ordinary status tag. -/
def dataOther : Json := Json.obj [("status", Json.str "tmp inserted")]

/-- proto `EventData` message (only the fields `resolve_and_broadcast`
touches are modelled). -/
structure EventData where
  id : Int
  name : String
  pic_data : Option String
  pic_data_base64 : Option String
  deriving DecidableEq

/-- proto `TimeCardEvent` message. -/
structure TimeCardEvent where
  status : String
  data : Option EventData
  deriving DecidableEq

/-- The standard base64 alphabet. -/
def base64Chars : List Char :=
  "ABCDEFGHIJKLMNOPQRSTUVWXYZabcdefghijklmnopqrstuvwxyz0123456789+/".data

/-- Standard base64 of a byte sequence, with padding. -/
def base64EncodeBytes : List Nat → String
  | [] => ""
  | [b1] =>
      String.mk [base64Chars.getD (b1 / 4) 'A',
                 base64Chars.getD (b1 % 4 * 16) 'A'] ++ "=="
  | [b1, b2] =>
      String.mk [base64Chars.getD (b1 / 4) 'A',
                 base64Chars.getD (b1 % 4 * 16 + b2 / 16) 'A',
                 base64Chars.getD (b2 % 16 * 4) 'A'] ++ "="
  | b1 :: b2 :: b3 :: rest =>
      String.mk [base64Chars.getD (b1 / 4) 'A',
                 base64Chars.getD (b1 % 4 * 16 + b2 / 16) 'A',
                 base64Chars.getD (b2 % 16 * 4 + b3 / 64) 'A',
                 base64Chars.getD (b3 % 64) 'A'] ++ base64EncodeBytes rest

/-- `base64::engine::general_purpose::STANDARD.encode` of a string's UTF-8
bytes. -/
def base64Encode (s : String) : String :=
  base64EncodeBytes (s.toUTF8.toList.map (fun b => b.toNat))

/-- The pic_data step of `resolve_and_broadcast`: when `pic_data` is present
and non-empty, fill `pic_data_base64` with its base64 encoding. -/
def applyPicBase64 (d : EventData) : EventData :=
  match d.pic_data with
  | some pic =>
      if pic.isEmpty then d
      else { d with pic_data_base64 := some (base64Encode pic) }
  | none => d

/-- gRPC `resolve_and_broadcast` (services/notification.rs): for a
`tmp inserted wo pic` event whose payload has a nonzero id and an empty
name, look the driver's name up in the reference store; `dbError` models the
query failing, in which case the `?` operator aborts the handler with
`Status::internal` *before* anything is sent to the broadcast channel. A
found driver fills `data.name`, an absent driver leaves it unchanged;
`pic_data` is then base64-converted, and the event is sent to the broadcast
channel and returned. The second component is the list of events sent. -/
def resolve_and_broadcast (drivers : List DriverRow) (dbError : Bool)
    (event : TimeCardEvent) : Except String TimeCardEvent × List TimeCardEvent :=
  if event.status = "tmp inserted wo pic" then
    match event.data with
    | some d =>
        if d.id != 0 && d.name.isEmpty then
          if dbError then (Except.error "Database error", [])
          else
            let d1 :=
              match get_driver_name drivers d.id with
              | some nm => { d with name := nm }
              | none => d
            let ev := { event with data := some (applyPicBase64 d1) }
            (Except.ok ev, [ev])
        else
          let ev := { event with data := some (applyPicBase64 d) }
          (Except.ok ev, [ev])
    | none => (Except.ok event, [event])
  else (Except.ok event, [event])

/-- A concrete event payload with id 42, an empty name and no picture. -/
def eventDataW : EventData :=
  { id := 42, name := "", pic_data := none, pic_data_base64 := none }

/-- A concrete `tmp inserted wo pic` event around `eventDataW`. -/
def eventW : TimeCardEvent :=
  { status := "tmp inserted wo pic", data := some eventDataW }

/-! Helper lemmas. -/

theorem notDeletedOpt_iff (d : Option Int) :
    notDeletedOpt d = true ↔ d = some 0 ∨ d = none := by
  simp [notDeletedOpt]

theorem blockedByRegistry_iff (registry : List IcIdRow) (r : IcNonRegRow) :
    blockedByRegistry registry r = true ↔
      ∃ i ∈ registry, i.ic_id = r.id ∧ (i.deleted = some 0 ∨ i.deleted = none) ∧
        r.datetime ≤ i.date := by
  simp [blockedByRegistry, List.any_eq_true, notDeletedOpt, and_assoc]

theorem mem_insertDesc (r a : IcNonRegRow) (l : List IcNonRegRow) :
    a ∈ insertDesc r l ↔ a = r ∨ a ∈ l := by
  induction l with
  | nil => simp [insertDesc]
  | cons x xs ih =>
      by_cases h : x.datetime ≤ r.datetime
      · simp [insertDesc, h]
      · simp [insertDesc, h, ih]
        tauto

theorem mem_sortByDatetimeDesc (a : IcNonRegRow) (l : List IcNonRegRow) :
    a ∈ sortByDatetimeDesc l ↔ a ∈ l := by
  induction l with
  | nil => simp [sortByDatetimeDesc]
  | cons x xs ih => simp [sortByDatetimeDesc, mem_insertDesc, ih]

theorem mem_get_all (db : Db) (start_date : Int) (x : IcNonReg) :
    x ∈ get_all db start_date ↔
      ∃ r ∈ db.ic_non_reged,
        (start_date ≤ r.datetime ∧ (r.deleted = some 0 ∨ r.deleted = none) ∧
          ¬ ∃ i ∈ db.ic_id, i.ic_id = r.id ∧ (i.deleted = some 0 ∨ i.deleted = none) ∧
            r.datetime ≤ i.date) ∧
        x = { id := r.id, datetime := r.datetime,
              deleted := r.deleted.map (fun d => d != 0),
              registered_id := r.registered_id } := by
  unfold get_all
  simp only [List.mem_map, mem_sortByDatetimeDesc, List.mem_filter]
  constructor
  · rintro ⟨r, ⟨hr, hcond⟩, rfl⟩
    refine ⟨r, hr, ?_, rfl⟩
    simp only [Bool.and_eq_true, Bool.not_eq_true', decide_eq_true_eq] at hcond
    obtain ⟨⟨h1, h2⟩, h3⟩ := hcond
    refine ⟨h1, (notDeletedOpt_iff _).1 h2, ?_⟩
    intro hex
    rw [← blockedByRegistry_iff db.ic_id r] at hex
    simp [hex] at h3
  · rintro ⟨r, hr, ⟨h1, h2, h3⟩, rfl⟩
    refine ⟨r, ⟨hr, ?_⟩, rfl⟩
    simp only [Bool.and_eq_true, Bool.not_eq_true', decide_eq_true_eq]
    refine ⟨⟨h1, (notDeletedOpt_iff _).2 h2⟩, ?_⟩
    rw [← blockedByRegistry_iff db.ic_id r] at h3
    simp at h3
    exact h3

theorem filter_card_eq_nil (ic : String) (l : List IcNonRegRow)
    (h : ∀ r ∈ l, r.id ≠ ic) : l.filter (fun r => r.id == ic) = [] := by
  rw [List.filter_eq_nil_iff]
  intro a ha
  simp [h a ha]

theorem map_update_of_no_key (ic : String) (did now : Int) (l : List IcNonRegRow)
    (h : ∀ r ∈ l, r.id ≠ ic) :
    (l.map fun r =>
      if r.id == ic then
        ({ id := r.id, registered_id := some did,
           datetime := now + nineHours, deleted := some 0 } : IcNonRegRow)
      else r) = l := by
  induction l with
  | nil => rfl
  | cons x xs ih =>
      have hx : x.id ≠ ic := h x (List.mem_cons_self x xs)
      simp only [List.map_cons, beq_eq_false_iff_ne.2 hx, Bool.false_eq_true, if_false]
      rw [ih (fun r hr => h r (List.mem_cons_of_mem _ hr))]

theorem filter_map_update (ic : String) (did now : Int) (l : List IcNonRegRow)
    (hnd : (l.map (fun r => r.id)).Nodup)
    (hany : l.any (fun r => r.id == ic) = true) :
    (l.map fun r =>
      if r.id == ic then
        ({ id := r.id, registered_id := some did,
           datetime := now + nineHours, deleted := some 0 } : IcNonRegRow)
      else r).filter (fun r => r.id == ic) = [freshPendingRow ic did now] := by
  induction l with
  | nil => simp at hany
  | cons x xs ih =>
      simp only [List.map_cons, List.nodup_cons, List.mem_map] at hnd
      obtain ⟨hx, hxs⟩ := hnd
      by_cases hxic : x.id = ic
      · have hkeys : ∀ r ∈ xs, r.id ≠ ic := by
          intro r hr hric
          exact hx ⟨r, hr, by rw [hric, hxic]⟩
        simp only [List.map_cons, beq_iff_eq.2 hxic, if_true]
        rw [map_update_of_no_key ic did now xs hkeys]
        simp only [List.filter_cons, hxic, beq_self_eq_true, if_true]
        rw [filter_card_eq_nil ic xs hkeys]
        simp [freshPendingRow, hxic]
      · have hany' : xs.any (fun r => r.id == ic) = true := by
          simp only [List.any_cons, beq_eq_false_iff_ne.2 hxic, Bool.false_or] at hany
          exact hany
        simp only [List.map_cons, beq_eq_false_iff_ne.2 hxic, Bool.false_eq_true, if_false,
          List.filter_cons, ih hxs hany']

theorem upsertPending_filter (l : List IcNonRegRow) (ic : String) (did now : Int)
    (h : (l.map (fun r => r.id)).Nodup) :
    (upsertPending l ic did now).filter (fun r => r.id == ic) =
      [freshPendingRow ic did now] := by
  unfold upsertPending
  by_cases hany : l.any (fun r => r.id == ic) = true
  · simp only [hany, if_true]
    exact filter_map_update ic did now l h hany
  · simp only [hany, Bool.false_eq_true, if_false]
    have hkeys : ∀ r ∈ l, r.id ≠ ic := by
      intro r hr hric
      exact hany (List.any_eq_true.2 ⟨r, hr, beq_iff_eq.2 hric⟩)
    rw [List.filter_append, filter_card_eq_nil ic l hkeys]
    simp [freshPendingRow]

theorem upsertPending_keys_nodup (l : List IcNonRegRow) (ic : String) (did now : Int)
    (h : (l.map (fun r => r.id)).Nodup) :
    ((upsertPending l ic did now).map (fun r => r.id)).Nodup := by
  unfold upsertPending
  by_cases hany : l.any (fun r => r.id == ic) = true
  · simp only [hany, if_true]
    have : ((l.map fun r =>
        if r.id == ic then
          ({ id := r.id, registered_id := some did,
             datetime := now + nineHours, deleted := some 0 } : IcNonRegRow)
        else r).map (fun r => r.id)) = l.map (fun r => r.id) := by
      rw [List.map_map]
      apply List.map_congr_left
      intro r _
      by_cases hc : r.id = ic <;> simp [hc]
    rw [this]
    exact h
  · simp only [hany, Bool.false_eq_true, if_false, List.map_append]
    rw [List.nodup_append]
    refine ⟨h, List.nodup_singleton _, ?_⟩
    intro a ha hb
    simp only [List.map_cons, List.map_nil, List.mem_singleton] at hb
    obtain ⟨r, hr, hid⟩ := List.mem_map.1 ha
    exact hany (List.any_eq_true.2 ⟨r, hr, beq_iff_eq.2 (by rw [hid, hb])⟩)

theorem find_setFields (k : String) (v : Json) (fs : List (String × Json)) :
    (setFields k v fs).find? (fun f => f.1 == k) = some (k, v) := by
  induction fs with
  | nil => simp [setFields]
  | cons f fs ih =>
      by_cases h : f.1 = k
      · simp [setFields, h]
      · simp only [setFields, beq_eq_false_iff_ne.2 h, Bool.false_eq_true, if_false]
        rw [List.find?_cons_of_neg _ (by simp [h])]
        exact ih

theorem getKey_setKey_obj (fs : List (String × Json)) (k : String) (v : Json) :
    ((Json.obj fs).setKey k v).getKey k = some v := by
  simp [Json.setKey, Json.getKey, find_setFields]

theorem getKey_some_obj (j : Json) (k : String) (x : Json) (h : j.getKey k = some x) :
    ∃ fs, j = Json.obj fs := by
  cases j <;> simp [Json.getKey] at h ⊢

theorem charsEqUpToCase_map_toUpper (l1 : List Char) (l2 : List Char)
    (h : charsEqUpToCase l1 l2 = true) :
    l1.map Char.toUpper = l2.map Char.toUpper := by
  induction l1 generalizing l2 with
  | nil =>
      cases l2 with
      | nil => rfl
      | cons c t => simp [charsEqUpToCase] at h
  | cons c1 t1 ih =>
      cases l2 with
      | nil => simp [charsEqUpToCase] at h
      | cons c2 t2 =>
          simp only [charsEqUpToCase, Bool.and_eq_true, beq_iff_eq] at h
          simp [h.1, ih t2 h.2]

theorem rustToUppercase_congr (s1 s2 : String) (h : eqUpToCase s1 s2 = true) :
    rustToUppercase s1 = rustToUppercase s2 := by
  unfold rustToUppercase
  rw [charsEqUpToCase_map_toUpper s1.data s2.data h]

/-- C8: ListPending(since) returns exactly the pending rows with
reservation_time at or after `since` whose completed flag is not set
(`deleted` is 0 or NULL), excluding every card with a non-deleted
permanent-registry record dated at or after the row's reservation_time. -/
theorem c8_listPending_exact (db : Db) (since : Int) (x : IcNonReg) :
    x ∈ get_all db since ↔
      ∃ r ∈ db.ic_non_reged,
        (since ≤ r.datetime ∧ (r.deleted = some 0 ∨ r.deleted = none) ∧
          ¬ ∃ i ∈ db.ic_id, i.ic_id = r.id ∧ (i.deleted = some 0 ∨ i.deleted = none) ∧
            r.datetime ≤ i.date) ∧
        x = { id := r.id, datetime := r.datetime,
              deleted := r.deleted.map (fun d => d != 0),
              registered_id := r.registered_id } :=
  mem_get_all db since x

/-- C6: ReserveDirect upserts keyed by card — reserving a card for driver dA
and then for driver dB leaves exactly one pending row for the card, holding
dB, with the completed flag cleared and reservation_time equal to the second
call's current time plus the fixed nine-hour forward offset. -/
theorem c6_reserve_upsert_keyed_by_card (db : Db) (now1 now2 : Int) (card : String)
    (dA dB : Int) (hkeys : (db.ic_non_reged.map (fun r => r.id)).Nodup) :
    ((register_direct (register_direct db now1 { ic_id := card, driver_id := dA }).1 now2
        { ic_id := card, driver_id := dB }).1.ic_non_reged.filter
      (fun r => r.id == card)) =
      [{ id := card, registered_id := some dB, datetime := now2 + nineHours,
         deleted := some 0 }] := by
  have hstep : (register_direct (register_direct db now1
      { ic_id := card, driver_id := dA }).1 now2
      { ic_id := card, driver_id := dB }).1.ic_non_reged =
      upsertPending (upsertPending db.ic_non_reged card dA now1) card dB now2 := rfl
  rw [hstep, upsertPending_filter _ _ _ _ (upsertPending_keys_nodup _ _ _ _ hkeys)]
  rfl

/-- C6 witness: from the empty database, reserving card C for driver 1 and
then driver 2 leaves exactly the single pending row for driver 2. -/
theorem c6_witness :
    (dbEmpty.ic_non_reged.map (fun r => r.id)).Nodup ∧
    ((register_direct (register_direct dbEmpty 0 { ic_id := "C", driver_id := 1 }).1 5
        { ic_id := "C", driver_id := 2 }).1.ic_non_reged.filter
      (fun r => r.id == "C")) =
      [{ id := "C", registered_id := some 2, datetime := 5 + nineHours,
         deleted := some 0 }] :=
  ⟨by decide, c6_reserve_upsert_keyed_by_card dbEmpty 0 5 "C" 1 2 (by decide)⟩

/-- C7: CancelReservation clears the reserved driver and resets the completed
flag on every pending row of the card; it is a no-op (still succeeding) when
the card has no pending row; and after ReserveDirect then CancelReservation
the card appears in ListPending(0) with no driver assigned. -/
theorem c7_cancel_reservation (db : Db) (card : String) (driver now : Int)
    (hkeys : (db.ic_non_reged.map (fun r => r.id)).Nodup)
    (hnow : 0 ≤ now)
    (hnoblock : ¬ ∃ i ∈ db.ic_id, i.ic_id = card ∧
        (i.deleted = some 0 ∨ i.deleted = none) ∧ now + nineHours ≤ i.date) :
    (∀ db2 r, r ∈ (cancel_reservation db2 card).ic_non_reged → r.id = card →
        r.registered_id = none ∧ r.deleted = some 0) ∧
    (∀ db2, (∀ r ∈ db2.ic_non_reged, r.id ≠ card) → cancel_reservation db2 card = db2) ∧
    ({ id := card, datetime := now + nineHours, deleted := some false,
       registered_id := none } : IcNonReg) ∈
      get_all (cancel_reservation
        (register_direct db now { ic_id := card, driver_id := driver }).1 card) 0 := by
  refine ⟨?_, ?_, ?_⟩
  · intro db2 r hr hid
    unfold cancel_reservation at hr
    simp only [List.mem_map] at hr
    obtain ⟨r0, _, rfl⟩ := hr
    by_cases h0 : r0.id = card
    · simp [h0]
    · simp only [beq_eq_false_iff_ne.2 h0, Bool.false_eq_true, if_false] at hid ⊢
      exact absurd hid h0
  · intro db2 hnone
    have hmap : db2.ic_non_reged.map (fun r =>
        if r.id == card then { r with registered_id := none, deleted := some 0 } else r) =
        db2.ic_non_reged := by
      conv_rhs => rw [← List.map_id db2.ic_non_reged]
      apply List.map_congr_left
      intro r hr
      simp [beq_eq_false_iff_ne.2 (hnone r hr)]
    unfold cancel_reservation
    rw [hmap]
  · have hfresh : freshPendingRow card driver now ∈
        (register_direct db now { ic_id := card, driver_id := driver }).1.ic_non_reged := by
      have hfil := upsertPending_filter db.ic_non_reged card driver now hkeys
      have hm : freshPendingRow card driver now ∈
          (upsertPending db.ic_non_reged card driver now).filter (fun r => r.id == card) := by
        rw [hfil]
        exact List.mem_singleton_self _
      exact List.mem_of_mem_filter hm
    have hmem2 : ({ id := card, registered_id := none, datetime := now + nineHours, deleted := some 0 } : IcNonRegRow) ∈ (cancel_reservation (register_direct db now { ic_id := card, driver_id := driver }).1 card).ic_non_reged := by
      unfold cancel_reservation
      simp only [List.mem_map]
      refine ⟨freshPendingRow card driver now, hfresh, ?_⟩
      simp [freshPendingRow]
    rw [mem_get_all]
    refine ⟨_, hmem2, ⟨?_, Or.inl rfl, ?_⟩, rfl⟩
    · show (0 : Int) ≤ now + nineHours
      unfold nineHours
      omega
    · intro hex
      exact hnoblock hex

/-- C7 witness: from the empty database, reserving card C for driver 5 and
cancelling leaves card C listed by ListPending(0) with no driver assigned. -/
theorem c7_witness :
    (dbEmpty.ic_non_reged.map (fun r => r.id)).Nodup ∧
    ((0 : Int) ≤ 0) ∧
    (¬ ∃ i ∈ dbEmpty.ic_id, i.ic_id = "C" ∧
        (i.deleted = some 0 ∨ i.deleted = none) ∧ (0 : Int) + nineHours ≤ i.date) ∧
    ({ id := "C", datetime := (0 : Int) + nineHours, deleted := some false,
       registered_id := none } : IcNonReg) ∈
      get_all (cancel_reservation
        (register_direct dbEmpty 0 { ic_id := "C", driver_id := 5 }).1 "C") 0 :=
  ⟨by decide, by decide, by simp [dbEmpty],
    (c7_cancel_reservation dbEmpty "C" 5 0 (by decide) (by decide)
      (by simp [dbEmpty])).2.2⟩

/-- The socket.io relay path: for an envelope tagged `tmp inserted wo pic`
whose payload has a numeric id and no name field, a successful
reference-store lookup fills the driver's name into `data.name` of the
relayed envelope; when the driver is absent or the lookup errors the
envelope is forwarded unmodified; and the relay completes (one payload
handed to the fan-out) in every case. -/
theorem handle_message_woPic_enrichment (drivers : List DriverRow) (data inner : Json) (id : Int)
    (name : String) (dbError : Bool)
    (hst : data.getKey "status" = some (Json.str "tmp inserted wo pic"))
    (hd : data.getKey "data" = some inner)
    (hid : inner.getKey "id" = some (Json.num id))
    (hname : inner.getKey "name" = none) :
    (get_driver_name drivers id = some name → dbError = false →
      (((handle_message drivers dbError data).1.getKey "data").bind
          (fun j => j.getKey "name") = some (Json.str name) ∧
        (handle_message drivers dbError data).2.length = 1)) ∧
    (get_driver_name drivers id = none →
      handle_message drivers dbError data = (data, [Json.encode data])) ∧
    (dbError = true →
      handle_message drivers dbError data = (data, [Json.encode data])) := by
  have hstatus : statusOf data = "tmp inserted wo pic" := by
    unfold statusOf
    rw [hst]
  obtain ⟨fs, rfl⟩ := getKey_some_obj data "data" inner hd
  obtain ⟨gs, rfl⟩ := getKey_some_obj inner "id" (Json.num id) hid
  refine ⟨?_, ?_, ?_⟩
  · intro hlook hdbe
    subst hdbe
    have henr : enrichWoPic drivers false (Json.obj fs) =
        (Json.obj fs).setKey "data" ((Json.obj gs).setKey "name" (Json.str name)) := by
      unfold enrichWoPic
      rw [hd]
      simp [hid, hname, hlook]
    have hmsg : (handle_message drivers false (Json.obj fs)).1 =
        (Json.obj fs).setKey "data" ((Json.obj gs).setKey "name" (Json.str name)) := by
      unfold handle_message
      simp [hstatus, henr]
    refine ⟨?_, rfl⟩
    rw [hmsg, getKey_setKey_obj]
    show ((Json.obj gs).setKey "name" (Json.str name)).getKey "name" =
      some (Json.str name)
    exact getKey_setKey_obj gs "name" (Json.str name)
  · intro hlook
    have henr : enrichWoPic drivers dbError (Json.obj fs) = Json.obj fs := by
      unfold enrichWoPic
      rw [hd]
      cases dbError
      · simp [hid, hname, hlook]
      · simp [hid, hname]
    unfold handle_message
    simp [hstatus, henr]
  · intro hdbe
    subst hdbe
    have henr : enrichWoPic drivers true (Json.obj fs) = Json.obj fs := by
      unfold enrichWoPic
      rw [hd]
      simp [hid, hname]
    unfold handle_message
    simp [hstatus, henr]

/-- C5: every inbound message is handed to the broadcast fan-out exactly
once, and for any status tag other than `tmp inserted wo pic` the relayed
payload is the inbound payload unchanged. -/
theorem c5_forward_exactly_once (drivers : List DriverRow) (dbError : Bool) (data : Json) :
    (handle_message drivers dbError data).2.length = 1 ∧
    (statusOf data ≠ "tmp inserted wo pic" →
      handle_message drivers dbError data = (data, [Json.encode data])) := by
  constructor
  · rfl
  · intro h
    unfold handle_message
    simp [h]

/-- C5 witness: a `tmp inserted` envelope is forwarded byte-for-byte
unchanged, handed to the fan-out exactly once. -/
theorem c5_witness :
    statusOf dataOther ≠ "tmp inserted wo pic" ∧
    handle_message [] false dataOther = (dataOther, [Json.encode dataOther]) :=
  ⟨by decide, (c5_forward_exactly_once [] false dataOther).2 (by decide)⟩

/-- C9: RequestDelete touches no database state — the database passes through
unchanged and the response and emissions are independent of it; with a
configured socket.io layer the emitted command is the delete JSON object
serialized to a string and that string serialized again (shown also on the
concrete id "ab"); with no socket.io layer configured the call reports
failure. -/
theorem c9_requestDelete (db db2 : Db) (cfg ns emitOk : Bool) (ic : String) :
    (delete_ic db cfg ns emitOk ic).1 = db ∧
    (delete_ic db cfg ns emitOk ic).2 = (delete_ic db2 cfg ns emitOk ic).2 ∧
    (delete_ic db true true true ic).2.2 =
      [Json.encode (Json.str (Json.encode (deleteIcPayload (rustToUppercase ic))))] ∧
    (delete_ic db false ns emitOk ic).2.1.success = false ∧
    (delete_ic db true true true "ab").2.2 =
      ["\"\x7b\\\"ic\\\":\\\"AB\\\",\\\"status\\\":\\\"delete_ic\\\"\x7d\""] := by
  refine ⟨?_, ?_, rfl, rfl, rfl⟩
  · unfold delete_ic
    cases cfg <;> cases ns <;> cases emitOk <;> rfl
  · unfold delete_ic
    cases cfg <;> cases ns <;> cases emitOk <;> rfl

/-- C10: the card id embedded in the emitted delete command is the
upper-cased form of the id supplied by the caller, so two requests whose ids
differ only in letter case produce the identical command payload. -/
theorem c10_uppercased_id (db : Db) (ns emitOk : Bool) (ic1 ic2 : String)
    (h : eqUpToCase ic1 ic2 = true) :
    (delete_ic db true true true ic1).2.2 =
      [Json.encode (Json.str (Json.encode (deleteIcPayload (rustToUppercase ic1))))] ∧
    delete_ic db true ns emitOk ic1 = delete_ic db true ns emitOk ic2 := by
  refine ⟨rfl, ?_⟩
  unfold delete_ic
  rw [rustToUppercase_congr ic1 ic2 h]

/-- C10 witness: the ids "ab1" and "Ab1" differ only in case and produce the
identical delete command. -/
theorem c10_witness :
    eqUpToCase "ab1" "Ab1" = true ∧
    delete_ic dbEmpty true true true "ab1" = delete_ic dbEmpty true true true "Ab1" :=
  ⟨by decide, (c10_uppercased_id dbEmpty true true "ab1" "Ab1" (by decide)).2⟩

/-- C1 counterexample: on the gRPC ReserveDirect path (`register_direct`),
a request with driver id 999 absent from the reference store answers
`success = true` (not NotFound) and still creates a pending-registration row,
so the claim fails as stated on this cited code path. -/
theorem c1_counterexample :
    (register_direct dbEmpty 0 { ic_id := "CARD1", driver_id := 999 }).2.success = true ∧
    (register_direct dbEmpty 0 { ic_id := "CARD1", driver_id := 999 }).1.ic_non_reged ≠ [] := by
  decide

/-- C1 (amended): on the HTTP ReserveDirect endpoint (`register_direct_ic`),
a request whose driver id is absent from the reference store gets the
not-found failure response and the database is left unchanged; the gRPC
`register_direct` performs no such validation. -/
theorem c1_http_notFound_no_mutation (db : Db) (now : Int) (req : RegisterIcRequest)
    (h : findDriver db.drivers req.driver_id = none) :
    register_direct_ic db now req =
      (db, { success := false, message := "ドライバーIDが見つかりません",
             ic_id := none, driver_id := none, driver_name := none }) := by
  unfold register_direct_ic
  rw [h]

/-- C1 witness: driver 999 is absent from the empty database, and the
not-found theorem applies there. -/
theorem c1_witness :
    findDriver dbEmpty.drivers 999 = none ∧
    register_direct_ic dbEmpty 0 { ic_id := "CARD1", driver_id := 999 } =
      (dbEmpty, { success := false, message := "ドライバーIDが見つかりません",
                  ic_id := none, driver_id := none, driver_name := none }) :=
  ⟨rfl, c1_http_notFound_no_mutation dbEmpty 0 { ic_id := "CARD1", driver_id := 999 } rfl⟩

/-- C2 counterexample: on the gRPC ReserveDirect path (`register_direct`),
a request for card CARD1 — which already has a non-deleted permanent-registry
record — answers `success = true` (not Conflict) and mutates the
pending-registration table, so the claim fails as stated on this cited code
path. -/
theorem c2_counterexample :
    (register_direct dbConflict 0 { ic_id := "CARD1", driver_id := 7 }).2.success = true ∧
    (register_direct dbConflict 0 { ic_id := "CARD1", driver_id := 7 }).1.ic_non_reged ≠
      dbConflict.ic_non_reged := by
  decide

/-- C2 (amended): on the HTTP ReserveDirect endpoint (`register_direct_ic`),
a request for a card that has a permanent-registry record with `deleted = 0`
gets the conflict failure response and the database is left unchanged; the
gRPC `register_direct` performs no such check. -/
theorem c2_http_conflict_no_mutation (db : Db) (now : Int) (req : RegisterIcRequest)
    (d : DriverRow) (hd : findDriver db.drivers req.driver_id = some d)
    (hc : db.ic_id.any (fun r => r.ic_id == req.ic_id && r.deleted == some 0) = true) :
    register_direct_ic db now req =
      (db, { success := false, message := "このICカードは既に登録されています",
             ic_id := some req.ic_id, driver_id := none, driver_name := none }) := by
  unfold register_direct_ic
  rw [hd]
  simp [hc]

/-- C2 witness: in `dbConflict`, driver 7 exists and card CARD1 has a
non-deleted permanent-registry record, and the conflict theorem applies. -/
theorem c2_witness :
    findDriver dbConflict.drivers 7 = some { id := 7, name := "Alice" } ∧
    dbConflict.ic_id.any (fun r => r.ic_id == "CARD1" && r.deleted == some 0) = true ∧
    register_direct_ic dbConflict 0 { ic_id := "CARD1", driver_id := 7 } =
      (dbConflict, { success := false, message := "このICカードは既に登録されています",
                     ic_id := some "CARD1", driver_id := none, driver_name := none }) :=
  ⟨rfl, rfl,
    c2_http_conflict_no_mutation dbConflict 0 { ic_id := "CARD1", driver_id := 7 }
      { id := 7, name := "Alice" } rfl rfl⟩

/-- C3: the finalize path (`register_ic`) performs no re-check of the
Conflict condition before writing — finalizing card CARD1 twice from the
empty database leaves two non-deleted permanent-registry rows for CARD1,
violating the claimed at-most-one bound. -/
theorem c3_finalize_twice_duplicates :
    countNonDeletedRegistry
      (register_ic (register_ic dbEmpty 0 { ic_id := "CARD1", driver_id := 7 }) 1
        { ic_id := "CARD1", driver_id := 7 }) "CARD1" = 2 := by
  decide

/-- C4 counterexample: on the cited gRPC `resolve_and_broadcast` path, a
driver-lookup error makes the handler return `Status::internal` before the
broadcast — the envelope is not forwarded and the relay does not complete
successfully, refuting the claim as stated at this concrete input. -/
theorem c4_counterexample :
    (resolve_and_broadcast driversW true eventW).1 = Except.error "Database error" ∧
    (resolve_and_broadcast driversW true eventW).2 = [] :=
  ⟨rfl, rfl⟩

/-- C4 (amended): on the socket.io relay path (`handle_message`), exactly as
claimed — a found driver fills `data.name`, an absent driver or a lookup
error forwards the envelope unmodified and the relay still completes, with
one payload handed to the fan-out in every case; on the gRPC
`resolve_and_broadcast` path, a found driver fills the name and an absent
driver forwards the event unmodified and still broadcasts, but a lookup
error aborts the handler with Internal before any broadcast. -/
theorem c4_enrichment_amended (drivers : List DriverRow) (data inner : Json)
    (id : Int) (name name2 : String) (dbError : Bool) (event : TimeCardEvent)
    (d : EventData)
    (hst : data.getKey "status" = some (Json.str "tmp inserted wo pic"))
    (hd : data.getKey "data" = some inner)
    (hid : inner.getKey "id" = some (Json.num id))
    (hname : inner.getKey "name" = none)
    (hest : event.status = "tmp inserted wo pic")
    (hed : event.data = some d)
    (heid : d.id ≠ 0)
    (hen : d.name = "")
    (hep : d.pic_data = none) :
    (get_driver_name drivers id = some name → dbError = false →
      (((handle_message drivers dbError data).1.getKey "data").bind
          (fun j => j.getKey "name") = some (Json.str name) ∧
        (handle_message drivers dbError data).2.length = 1)) ∧
    (get_driver_name drivers id = none →
      handle_message drivers dbError data = (data, [Json.encode data])) ∧
    (dbError = true →
      handle_message drivers dbError data = (data, [Json.encode data])) ∧
    (get_driver_name drivers d.id = some name2 → dbError = false →
      resolve_and_broadcast drivers dbError event =
        (Except.ok { event with data := some { d with name := name2 } },
         [{ event with data := some { d with name := name2 } }])) ∧
    (get_driver_name drivers d.id = none → dbError = false →
      resolve_and_broadcast drivers dbError event = (Except.ok event, [event])) ∧
    (dbError = true →
      resolve_and_broadcast drivers dbError event =
        (Except.error "Database error", [])) := by
  obtain ⟨hh1, hh2, hh3⟩ :=
    handle_message_woPic_enrichment drivers data inner id name dbError hst hd hid hname
  obtain ⟨es, ed⟩ := event
  obtain rfl : es = "tmp inserted wo pic" := hest
  obtain rfl : ed = some d := hed
  have hcond : (d.id != 0 && d.name.isEmpty) = true := by
    have h1 : (d.id != 0) = true := bne_iff_ne.2 heid
    rw [hen, h1]
    decide
  refine ⟨hh1, hh2, hh3, ?_, ?_, ?_⟩
  · intro hlook hdbe
    subst hdbe
    unfold resolve_and_broadcast
    simp [hcond, hlook, applyPicBase64, hep]
  · intro hlook hdbe
    subst hdbe
    unfold resolve_and_broadcast
    simp [hcond, hlook, applyPicBase64, hep]
  · intro hdbe
    subst hdbe
    unfold resolve_and_broadcast
    simp [hcond]

/-- C4 witness: with driver 42 named Alice, the socket.io relay of `dataW`
carries `data.name = "Alice"` (and with an empty store forwards it
unmodified), and the gRPC path broadcasts the name-filled event `eventW`. -/
theorem c4_amended_witness :
    get_driver_name driversW 42 = some "Alice" ∧
    ((handle_message driversW false dataW).1.getKey "data").bind
        (fun j => j.getKey "name") = some (Json.str "Alice") ∧
    handle_message [] false dataW = (dataW, [Json.encode dataW]) ∧
    resolve_and_broadcast driversW false eventW =
      (Except.ok { eventW with data := some { eventDataW with name := "Alice" } },
       [{ eventW with data := some { eventDataW with name := "Alice" } }]) :=
  ⟨rfl,
   ((c4_enrichment_amended driversW dataW innerW 42 "Alice" "Alice" false eventW eventDataW
      rfl rfl rfl rfl rfl rfl (by decide) rfl rfl).1 rfl rfl).1,
   (c4_enrichment_amended [] dataW innerW 42 "Alice" "Alice" false eventW eventDataW
      rfl rfl rfl rfl rfl rfl (by decide) rfl rfl).2.1 rfl,
   (c4_enrichment_amended driversW dataW innerW 42 "Alice" "Alice" false eventW eventDataW
      rfl rfl rfl rfl rfl rfl (by decide) rfl rfl).2.2.2.1 rfl rfl⟩

end Timecard
